import Mathlib

/-!
# Verification of the metal compute runtime core

A shallow embedding of the host-side GPU compute runtime: the resource
cache (cache.m), the buffer manager (buffer.go, helpers.go), the kernel
registry and dispatch engine (metal.m, function.h), together with proofs
about their behaviour.

Machine integers: Go `int` is 64-bit on the supported targets and Go
arithmetic and conversions wrap; conversions from Go `int` to C `int`
(`C.int(x)`) truncate to a signed 32-bit value.  These are modelled
explicitly with `wrap64` and `wrap32`.  C `int` arithmetic that cannot
overflow in any defined execution is modelled over unbounded `Int`.
-/

namespace Metal

/-- Reduce an integer to the signed 32-bit value with the same low 32 bits,
as a Go conversion `C.int(x)` does. -/
def wrap32 (x : ℤ) : ℤ := (x + 2 ^ 31) % 2 ^ 32 - 2 ^ 31

/-- Reduce an integer to the signed 64-bit value with the same low 64 bits,
as Go `int` arithmetic does on overflow. -/
def wrap64 (x : ℤ) : ℤ := (x + 2 ^ 63) % 2 ^ 64 - 2 ^ 63

/-- Go `int` multiplication (64-bit, wrapping). -/
def goMul (a b : ℤ) : ℤ := wrap64 (a * b)

/-- The data of a compiled compute pipeline that the dispatch sizing in
`metal_runFunction` reads (`threadExecutionWidth` and
`maxTotalThreadsPerThreadgroup` are `NSUInteger` device properties). -/
structure Pipeline where
  threadExecutionWidth : ℕ
  maxTotalThreadsPerThreadgroup : ℕ
deriving DecidableEq, Repr

/-- An entry of the global resource cache (`void **cache` in cache.m): either
a compiled `_function` (pipeline plus command queue) or an `MTLBuffer`. -/
inductive CacheItem where
  | func (p : Pipeline)
  | buf (token : ℕ)
deriving DecidableEq, Repr

/-- Reading a cache cell through a `_function *` as `metal_runFunction` does.
For a cell that actually holds a buffer this access is undefined behaviour in
the source; the model assigns it a fixed arbitrary pipeline. -/
def pipelineOf : CacheItem → Pipeline
  | .func p => p
  | .buf _ => ⟨1, 1⟩

/-- The backing sequence of the resource cache: slot `k` holds the entry for
handle `k + 1`, and `none` marks a removed (nil) slot. -/
abbrev Cache := List (Option CacheItem)

/-- cache.m `cache_cache`: append the item, return the new 1-based length as
the handle (`numItems` after the increment). -/
def cache_cache (s : Cache) (item : CacheItem) : Cache × ℤ :=
  (s ++ [some item], (s.length : ℤ) + 1)

/-- Modelled from the spec: the current revision of `cache_retrieve` (the
cache revision that also defines `cache_init`, which metal.m calls but which
is absent from the provided sources) fails on a handle outside `[1, length]`
and returns the slot contents otherwise, `nil` for a removed slot.  The
provided cache.m is an older revision that asserts on the range check
instead of failing gracefully, which contradicts the repository tests. -/
def cache_retrieve (s : Cache) (cacheId : ℤ) : Option CacheItem :=
  if 1 ≤ cacheId ∧ cacheId ≤ (s.length : ℤ) then s.getD (cacheId - 1).toNat none
  else none

/-- cache.m `cache_remove`: range-check the handle, then clear the slot in
place; the sequence never shrinks. -/
def cache_remove (s : Cache) (cacheId : ℤ) : Option Cache :=
  if 1 ≤ cacheId ∧ cacheId ≤ (s.length : ℤ) then some (s.set (cacheId - 1).toNat none)
  else none

/-- A cache operation: a (successful) `cache_cache` of a non-nil item, or a
`cache_remove` of an arbitrary handle. -/
inductive CacheOp where
  | store (item : CacheItem)
  | remove (cacheId : ℤ)
deriving DecidableEq, Repr

/-- Number of store operations in a list of cache operations. -/
def countStores : List CacheOp → ℕ
  | [] => 0
  | .store _ :: rest => countStores rest + 1
  | .remove _ :: rest => countStores rest

/-- Run a list of cache operations from a given state, collecting the handle
returned by each store, in order.  A remove whose range check fails leaves
the state unchanged. -/
def runTrace (s : Cache) : List CacheOp → Cache × List ℤ
  | [] => (s, [])
  | .store item :: rest =>
      let step := cache_cache s item
      let tail := runTrace step.1 rest
      (tail.1, step.2 :: tail.2)
  | .remove cacheId :: rest => runTrace ((cache_remove s cacheId).getD s) rest

/-- The outcomes of the external device calls made by `metal_runFunction`
that are out of scope here (command buffer and compute encoder creation). -/
structure RunEnv where
  commandBufferOk : Bool
  encoderOk : Bool
deriving DecidableEq, Repr

/-- The dispatch primitive used to encode the grid.  `dispatchThreads` is the
non-uniform primitive: the grid need not be a multiple of the threadgroup
size. -/
inductive DispatchMethod where
  | dispatchThreads
  | dispatchThreadgroups
deriving DecidableEq, Repr

/-- What a successful `metal_runFunction` encodes and submits: the grid size
(`MTLSizeMake(width, height, depth)` from the C `int` arguments), the
threadgroup size (`NSUInteger` values), the resolved buffer arguments in
order, and the dispatch primitive used. -/
structure DispatchRecord where
  gridSize : ℤ × ℤ × ℤ
  threadgroupSize : ℕ × ℕ × ℕ
  buffers : List CacheItem
  method : DispatchMethod
deriving DecidableEq, Repr

/-- Observable result of `metal_runFunction`: the error set in `*error` (with
the 1-based position, total count and handle for a failed buffer lookup), or
the successful dispatch. -/
inductive RunOutcome where
  | functionNotFound
  | commandBufferFailed
  | encoderFailed
  | bufferNotFound (position total : ℕ) (bufferId : ℤ)
  | success (rec : DispatchRecord)
deriving DecidableEq, Repr

/-- The buffer-argument loop of `metal_runFunction`: resolve each buffer
handle through the cache in order; stop at the first handle that does not
resolve, reporting its 0-based loop index and the handle value. -/
def resolveBuffers (cache : Cache) : List ℤ → ℕ → Except (ℕ × ℤ) (List CacheItem)
  | [], _ => .ok []
  | bid :: rest, i =>
    match cache_retrieve cache bid with
    | none => .error (i, bid)
    | some item =>
      match resolveBuffers cache rest (i + 1) with
      | .error e => .error e
      | .ok items => .ok (item :: items)

/-- metal.m `metal_runFunction`: fetch the function from the cache (failing
first if it does not resolve), create the command buffer and encoder, set
the pipeline, resolve and set each buffer argument in order (failing with
the 1-based position `i + 1`, the total count and the handle on the first
failure), then encode `dispatchThreads` with grid
`MTLSizeMake(width, height, depth)` and threadgroup size
`(w, maxTotalThreadsPerThreadgroup / w, 1)` for
`w = threadExecutionWidth`, and submit. -/
def metal_runFunction (env : RunEnv) (cache : Cache)
    (functionId width height depth : ℤ) (bufferIds : List ℤ) : RunOutcome :=
  match cache_retrieve cache functionId with
  | none => .functionNotFound
  | some item =>
    if env.commandBufferOk = false then .commandBufferFailed
    else if env.encoderOk = false then .encoderFailed
    else
      match resolveBuffers cache bufferIds 0 with
      | .error e => .bufferNotFound (e.1 + 1) bufferIds.length e.2
      | .ok items =>
        let p := pipelineOf item
        let w := p.threadExecutionWidth
        let h := p.maxTotalThreadsPerThreadgroup / w
        .success ⟨(width, height, depth), (w, h, 1), items, .dispatchThreads⟩

/-- function.h `Grid`: a caller-supplied 3-tuple of Go `int` thread counts. -/
structure Grid where
  X : ℤ
  Y : ℤ
  Z : ℤ
deriving DecidableEq, Repr

/-- The per-axis grid treatment in `Function.Run`: the Go `int` axis is first
converted to a C `int` (truncating to signed 32 bits), then any value below 1
is replaced by 1. -/
def normC (x : ℤ) : ℤ :=
  if wrap32 x < 1 then 1 else wrap32 x

/-- function.h `Function`: a compiled metal function, identified by the cache
handle assigned when it was created. -/
structure Function where
  id : ℤ
deriving DecidableEq, Repr

/-- function.h `Function.Valid`: a function is valid iff its id is positive. -/
def Function.Valid (function : Function) : Bool :=
  decide (0 < function.id)

/-- buffer.go `BufferId`: a handle referencing a metal buffer. -/
abbrev BufferId := ℤ

/-- buffer.go `BufferId.Valid`: a buffer id is valid iff it is positive; a
pure comparison, with no cache access. -/
def BufferId.Valid (id : BufferId) : Bool :=
  decide (0 < id)

/-- function.h `Function.Run`: collect the buffer ids, normalize each grid
axis with `normC` (truncate to C `int`, then clamp values below 1 up to 1 —
no upper bound is checked), and call `metal_runFunction`. -/
def Function.Run (env : RunEnv) (cache : Cache) (function : Function)
    (grid : Grid) (buffers : List ℤ) : RunOutcome :=
  metal_runFunction env cache function.id
    (normC grid.X) (normC grid.Y) (normC grid.Z) buffers

/-- helpers.go `metalErrToError`: translate a C error string (`none` models a
nil pointer) and a wrap message into a Go error (`none` models a nil error).
An empty or nil C string with an empty wrap gives nil; with only a wrap the
message is exactly the wrap; with both, the message is the wrap, a
colon-space separator, then the native text. -/
def metalErrToError (metalErr : Option String) (wrap : String) : Option String :=
  if metalErr = none ∨ metalErr = some "" then
    if wrap = "" then none else some wrap
  else if wrap = "" then some (metalErr.getD "")
  else some (wrap ++ ": " ++ metalErr.getD "")

/-- A Go slice over elements of type α: the visible elements together with
the capacity recorded in the slice header. -/
@[ext]
structure GoSlice (α : Type) where
  data : List α
  cap : ℕ
deriving DecidableEq, Repr

/-- helpers.go `toSlice`: wrap a block of memory in a slice header whose
length and capacity both equal `numElems`.  The block is modelled as the
list of its cells; instantiating the cells with their flat indices makes
aliasing checkable. -/
def toSlice {α : Type} (block : List α) (numElems : ℕ) : GoSlice α :=
  ⟨block.take numElems, numElems⟩

/-- Modelled from the spec: the slice-folding helper `fold`, called by
`NewBuffer2D` and `NewBuffer3D` in buffer.go, is not among the provided
source files.  Per the spec it slices the source into `numChunks` contiguous
chunks of `len / numChunks` elements each, without copying, and every
produced slice reports a capacity equal to its length. -/
def fold {α : Type} (src : GoSlice α) (numChunks : ℕ) : GoSlice (GoSlice α) :=
  ⟨(List.range numChunks).map fun i =>
    ⟨(src.data.drop (i * (src.data.length / numChunks))).take (src.data.length / numChunks),
      src.data.length / numChunks⟩,
    numChunks⟩

/-- The element types admitted by the `BufferType` constraint in buffer.go. -/
inductive BufferType where
  | i8 | i16 | i32 | i64 | u8 | u16 | u32 | u64 | f32 | f64
deriving DecidableEq, Repr

/-- helpers.go `sizeof`: the byte size of the generic element type. -/
def sizeof : BufferType → ℤ
  | .i8 => 1 | .u8 => 1
  | .i16 => 2 | .u16 => 2
  | .i32 => 4 | .u32 => 4 | .f32 => 4
  | .i64 => 8 | .u64 => 8 | .f64 => 8

/-- The device-capability interface consumed by `newBuffer`: `buffer_new`
allocates and caches a device buffer for a byte count, returning its handle
or 0 on failure; `buffer_retrieve` tells whether the handle yields the
memory; `cerr` is the C error buffer contents. -/
structure BufEnv where
  bufferNew : ℤ → ℤ
  bufferRetrieve : ℤ → Bool
  cerr : Option String

/-- Result triple of a buffer allocation: the buffer id, the view (or nil),
and the error (or nil). -/
structure BufResult (V : Type) where
  id : ℤ
  view : Option V
  err : Option String
deriving DecidableEq, Repr

/-- buffer.go: the `numElems` local of `newBuffer`, the running Go `int`
product of the dimension lengths, starting from 1. -/
def numElemsOf (dimLens : List ℤ) : ℤ := dimLens.foldl goMul 1

/-- buffer.go: the `numBytes` local of `newBuffer`, the Go `int` product of
the element size and the element count. -/
def numBytesOf (t : BufferType) (dimLens : List ℤ) : ℤ := goMul (sizeof t) (numElemsOf dimLens)

/-- The byte count actually passed to `buffer_new`: `C.int(numBytes)`
truncates the Go `int` to a signed 32-bit value at the cgo boundary. -/
def reqBytes (t : BufferType) (dimLens : List ℤ) : ℤ := wrap32 (numBytesOf t dimLens)

/-- buffer.go `newBuffer`: reject an empty dimension list, then any
dimension below 1, before computing sizes or touching the device; otherwise
request `C.int(numBytes)` bytes, retrieve the memory, and wrap it with
`toSlice`.  The second component records the byte counts requested from the
device, in order. -/
def newBuffer (env : BufEnv) (t : BufferType) (dimLens : List ℤ) :
    BufResult (GoSlice ℕ) × List ℤ :=
  if dimLens = [] then (⟨0, none, some "Missing dimension(s)"⟩, [])
  else if dimLens.any fun d => decide (d < 1) then
    (⟨0, none, some "Invalid number of elements"⟩, [])
  else if env.bufferNew (reqBytes t dimLens) = 0 then
    (⟨0, none, metalErrToError env.cerr "Unable to create buffer"⟩, [reqBytes t dimLens])
  else if env.bufferRetrieve (env.bufferNew (reqBytes t dimLens)) = false then
    (⟨0, none, metalErrToError env.cerr "Unable to retrieve buffer"⟩, [reqBytes t dimLens])
  else
    (⟨env.bufferNew (reqBytes t dimLens),
      some (toSlice (List.range (numElemsOf dimLens).toNat) (numElemsOf dimLens).toNat),
      none⟩, [reqBytes t dimLens])

/-- buffer.go `NewBuffer1D`. -/
def NewBuffer1D (env : BufEnv) (t : BufferType) (length : ℤ) :
    BufResult (GoSlice ℕ) × List ℤ :=
  newBuffer env t [length]

/-- buffer.go `NewBuffer2D`: allocate the flat block for `[length, width]`,
then fold it into `length` chunks. -/
def NewBuffer2D (env : BufEnv) (t : BufferType) (length width : ℤ) :
    BufResult (GoSlice (GoSlice ℕ)) × List ℤ :=
  let r := newBuffer env t [length, width]
  if r.1.err = none then
    (⟨r.1.id, r.1.view.map fun b1 => fold b1 length.toNat, none⟩, r.2)
  else (⟨0, none, r.1.err⟩, r.2)

/-- buffer.go `NewBuffer3D`: allocate the flat block for
`[length, width, height]`, fold it into `length*width` chunks, then fold the
result into `length` chunks, leaving `height` as the innermost dimension. -/
def NewBuffer3D (env : BufEnv) (t : BufferType) (length width height : ℤ) :
    BufResult (GoSlice (GoSlice (GoSlice ℕ))) × List ℤ :=
  let r := newBuffer env t [length, width, height]
  if r.1.err = none then
    (⟨r.1.id,
      r.1.view.map fun b1 => fold (fold b1 (goMul length width).toNat) length.toNat,
      none⟩, r.2)
  else (⟨0, none, r.1.err⟩, r.2)

/-- A compiled metal library, identified by the kernel names it exports. -/
structure Library where
  funcNames : List String
deriving DecidableEq, Repr

/-- The outcomes of the external allocation and device calls made by
`metal_newFunction`: whether `malloc` succeeds, what library the device
toolchain builds from a source string (`none` for a compile error), the
pipeline produced for the resolved function (`none` for a pipeline error),
and whether the command queue can be created. -/
structure CompileEnv where
  mallocOk : Bool
  newLibrary : String → Option Library
  pipelineResult : Option Pipeline
  queueOk : Bool

/-- The failure modes of `metal_newFunction`, in source order. -/
inductive NewFunctionError where
  | missingSource
  | missingEntryPoint
  | initFailed
  | compileFailed
  | entryPointNotFound (name : String)
  | pipelineFailed
  | queueFailed
  | cacheFailed
deriving DecidableEq, Repr

/-- metal.m `metal_newFunction`: reject empty source, then an empty function
name, then allocate the function object, compile the library, resolve the
entry point within it, build the pipeline and the command queue, and finally
cache the function, returning its handle. -/
def metal_newFunction (env : CompileEnv) (cache : Cache) (metalCode funcName : String) :
    Except NewFunctionError (Cache × ℤ) :=
  if metalCode = "" then .error .missingSource
  else if funcName = "" then .error .missingEntryPoint
  else if env.mallocOk = false then .error .initFailed
  else
    match env.newLibrary metalCode with
    | none => .error .compileFailed
    | some library =>
      if library.funcNames.contains funcName = false then
        .error (.entryPointNotFound funcName)
      else
        match env.pipelineResult with
        | none => .error .pipelineFailed
        | some p =>
          if env.queueOk = false then .error .queueFailed
          else if (cache_cache cache (.func p)).2 = 0 then .error .cacheFailed
          else .ok (cache_cache cache (.func p))

end Metal

namespace Metal

lemma cache_remove_getD_length (s : Cache) (cacheId : ℤ) :
    ((cache_remove s cacheId).getD s).length = s.length := by
  unfold cache_remove
  split
  · simp
  · rfl

lemma runTrace_spec (ops : List CacheOp) : ∀ s : Cache,
    (runTrace s ops).2 = (List.range' (s.length + 1) (countStores ops)).map (fun n => (n : ℤ)) ∧
    (runTrace s ops).1.length = s.length + countStores ops := by
  induction ops with
  | nil => intro s; simp [runTrace, countStores]
  | cons op rest ih =>
    intro s
    cases op with
    | store item =>
      have h := ih (s ++ [some item])
      have hlen : (s ++ [some item]).length = s.length + 1 := by simp
      constructor
      · show ((cache_cache s item).2 :: (runTrace (s ++ [some item]) rest).2) = _
        rw [h.1, hlen]
        show ((s.length : ℤ) + 1) :: _ = _
        rw [countStores, List.range'_succ]
        simp [Int.add_comm]
      · show (runTrace (s ++ [some item]) rest).1.length = _
        rw [h.2, hlen, countStores]
        omega
    | remove cacheId =>
      have h := ih ((cache_remove s cacheId).getD s)
      have hlen := cache_remove_getD_length s cacheId
      constructor
      · show (runTrace ((cache_remove s cacheId).getD s) rest).2 = _
        rw [h.1, hlen, countStores]
      · show (runTrace ((cache_remove s cacheId).getD s) rest).1.length = _
        rw [h.2, hlen, countStores]

/-- Claim C1: starting from the empty cache, for every sequence of store and
remove operations the handles returned by the successive stores are exactly
1, 2, 3, ... (the Nth successful store returns handle N, the new 1-based
length of the backing sequence), regardless of interleaved removes; and a
successful remove only clears a slot, never changing the length of the
backing sequence, so handles are never renumbered or reused. -/
theorem cache_handles_sequential :
    (∀ ops : List CacheOp,
      (runTrace [] ops).2 = (List.range' 1 (countStores ops)).map (fun n => (n : ℤ)) ∧
      (runTrace [] ops).1.length = countStores ops) ∧
    (∀ (s : Cache) (cacheId : ℤ) (s2 : Cache), cache_remove s cacheId = some s2 →
      s2.length = s.length) := by
  constructor
  · intro ops
    have h := runTrace_spec ops []
    simpa using h
  · intro s cacheId s2 h
    unfold cache_remove at h
    split at h
    · cases h; simp
    · cases h

/-- Concrete instance of claim C1: store, remove the only handle, then store
twice more; the three stores return handles 1, 2, 3 and the final backing
sequence still has three slots. -/
theorem cache_handles_sequential_witness :
    (runTrace [] [CacheOp.store (.buf 0), CacheOp.remove 1, CacheOp.store (.buf 1),
        CacheOp.store (.buf 2)]).2 = [(1 : ℤ), 2, 3] ∧
    ([none, none] : Cache).length = ([some (CacheItem.buf 5), none] : Cache).length := by
  constructor
  · exact (cache_handles_sequential.1 _).1.trans (by decide)
  · exact cache_handles_sequential.2 [some (CacheItem.buf 5), none] 1 [none, none] (by decide)

lemma resolveBuffers_first_fail (cache : Cache) :
    ∀ (bids : List ℤ) (j i : ℕ), j < bids.length →
      cache_retrieve cache (bids.getD j 0) = none →
      (∀ k, k < j → cache_retrieve cache (bids.getD k 0) ≠ none) →
      resolveBuffers cache bids i = .error (i + j, bids.getD j 0) := by
  intro bids
  induction bids with
  | nil => intro j i hj; simp at hj
  | cons b rest ih =>
    intro j i hj hfail hok
    cases j with
    | zero =>
      simp only [List.getD_cons_zero] at hfail ⊢
      unfold resolveBuffers
      rw [hfail]
      simp
    | succ j2 =>
      have hb : cache_retrieve cache b ≠ none := by
        have := hok 0 (Nat.succ_pos j2)
        simpa using this
      obtain ⟨item, hitem⟩ := Option.ne_none_iff_exists'.mp hb
      have hrec := ih j2 (i + 1) (by simpa using hj)
        (by simpa using hfail)
        (by
          intro k hk
          have := hok (k + 1) (by omega)
          simpa using this)
      unfold resolveBuffers
      rw [hitem, hrec]
      simp only [List.getD_cons_succ]
      congr 2
      omega

/-- Claim C2: `metal_runFunction` resolves the kernel handle through the
cache first and fails with the function-not-found error before any buffer
handle is examined (for every buffer handle list); otherwise buffer handles
are resolved in order, and the first unresolvable one fails the run with an
error carrying its 1-based position among the requested buffers, the total
count, and the failing handle value. -/
theorem run_resolves_kernel_before_buffers :
    ∀ (env : RunEnv) (cache : Cache) (functionId width height depth : ℤ)
      (bufferIds : List ℤ),
      (cache_retrieve cache functionId = none →
        metal_runFunction env cache functionId width height depth bufferIds =
          .functionNotFound) ∧
      (∀ j : ℕ, cache_retrieve cache functionId ≠ none →
        env.commandBufferOk = true → env.encoderOk = true →
        j < bufferIds.length →
        cache_retrieve cache (bufferIds.getD j 0) = none →
        (∀ k, k < j → cache_retrieve cache (bufferIds.getD k 0) ≠ none) →
        metal_runFunction env cache functionId width height depth bufferIds =
          .bufferNotFound (j + 1) bufferIds.length (bufferIds.getD j 0)) := by
  intro env cache functionId width height depth bufferIds
  constructor
  · intro hnone
    unfold metal_runFunction
    rw [hnone]
  · intro j hf hcb hen hj hfail hok
    obtain ⟨item, hitem⟩ := Option.ne_none_iff_exists'.mp hf
    have hres := resolveBuffers_first_fail cache bufferIds j 0 hj hfail hok
    unfold metal_runFunction
    rw [hitem, hcb, hen, hres]
    simp

/-- Concrete instance of claim C2: with a cache holding a kernel at handle 1
and a buffer at handle 2, running handle 5 fails with function-not-found even
with an unresolvable buffer list, and running handle 1 with buffers [2, 99]
fails reporting buffer 2 of 2 with handle 99. -/
theorem run_resolves_kernel_before_buffers_witness :
    metal_runFunction ⟨true, true⟩ [some (.func ⟨32, 1024⟩), some (.buf 7)] 5 1 1 1 [99] =
      .functionNotFound ∧
    metal_runFunction ⟨true, true⟩ [some (.func ⟨32, 1024⟩), some (.buf 7)] 1 1 1 1 [2, 99] =
      .bufferNotFound 2 2 99 := by
  constructor
  · exact (run_resolves_kernel_before_buffers ⟨true, true⟩
      [some (.func ⟨32, 1024⟩), some (.buf 7)] 5 1 1 1 [99]).1 (by decide)
  · exact (run_resolves_kernel_before_buffers ⟨true, true⟩
      [some (.func ⟨32, 1024⟩), some (.buf 7)] 1 1 1 1 [2, 99]).2 1 (by decide) rfl rfl
      (by decide) (by decide)
      (by
        intro k hk
        have hk0 : k = 0 := by omega
        subst hk0
        decide)

lemma run_success_inv (env : RunEnv) (cache : Cache)
    (functionId width height depth : ℤ) (bufferIds : List ℤ) (r : DispatchRecord)
    (h : metal_runFunction env cache functionId width height depth bufferIds = .success r) :
    ∃ item items, cache_retrieve cache functionId = some item ∧
      resolveBuffers cache bufferIds 0 = .ok items ∧
      r = ⟨(width, height, depth),
        ((pipelineOf item).threadExecutionWidth,
          (pipelineOf item).maxTotalThreadsPerThreadgroup /
            (pipelineOf item).threadExecutionWidth, 1),
        items, .dispatchThreads⟩ := by
  unfold metal_runFunction at h
  split at h
  · cases h
  next item heq =>
    split at h
    · cases h
    split at h
    · cases h
    split at h
    · cases h
    next items heq2 =>
      injection h with h2
      exact ⟨item, items, heq, heq2, h2.symm⟩

/-- Counterexample to claim C3 as stated: the grid axis `-4294967291` is
below zero, but `Function.Run` does not dispatch it as 1: the Go `int` axis
is first truncated to the C `int` value 5, which passes the `< 1` check, so
a 5-work-item axis is encoded.  The claim that every axis at most zero is
replaced by 1 therefore fails on the code. -/
theorem run_grid_truncation_counterexample :
    Function.Run ⟨true, true⟩ [some (.func ⟨32, 1024⟩)] ⟨1⟩ ⟨-4294967291, 1, 1⟩ [] =
      .success ⟨(5, 1, 1), (32, 32, 1), [], .dispatchThreads⟩ ∧
    (-4294967291 : ℤ) ≤ 0 ∧ (5 : ℤ) ≠ 1 := by
  refine ⟨by decide, by decide, by decide⟩

/-- Claim C3 (amended): each grid axis is first truncated to a signed 32-bit
C `int`; any truncated value below 1 (in particular every axis in
`[-2^31, 0]`) is replaced by 1, no upper bound is checked, and every
dispatched axis is at least 1; a successful run dispatches exactly the
normalized grid, and running grid `(-1,-1,-1)` on a valid kernel succeeds as
a single-work-item dispatch rather than returning an error. -/
theorem run_grid_normalization :
    (∀ x : ℤ, -(2 ^ 31) ≤ x → x ≤ 0 → normC x = 1) ∧
    (∀ x : ℤ, 1 ≤ normC x) ∧
    (∀ (env : RunEnv) (cache : Cache) (function : Function) (grid : Grid)
        (bufferIds : List ℤ) (r : DispatchRecord),
      Function.Run env cache function grid bufferIds = .success r →
      r.gridSize = (normC grid.X, normC grid.Y, normC grid.Z)) ∧
    (∀ (env : RunEnv) (cache : Cache) (function : Function) (item : CacheItem),
      cache_retrieve cache function.id = some item →
      env.commandBufferOk = true → env.encoderOk = true →
      Function.Run env cache function ⟨-1, -1, -1⟩ [] =
        .success ⟨(1, 1, 1),
          ((pipelineOf item).threadExecutionWidth,
            (pipelineOf item).maxTotalThreadsPerThreadgroup /
              (pipelineOf item).threadExecutionWidth, 1),
          [], .dispatchThreads⟩) := by
  refine ⟨?_, ?_, ?_, ?_⟩
  · intro x h1 h2
    unfold normC wrap32
    split <;> omega
  · intro x
    unfold normC wrap32
    split <;> omega
  · intro env cache function grid bufferIds r h
    unfold Function.Run at h
    obtain ⟨item, items, hitem, hres, hr⟩ := run_success_inv _ _ _ _ _ _ _ _ h
    subst hr
    rfl
  · intro env cache function item hre hcb hen
    have hx : normC (-1) = 1 := by decide
    unfold Function.Run metal_runFunction
    rw [hx, hre, hcb, hen]
    rfl

/-- Concrete instance of claim C3 (amended): axis -7 normalizes to 1, every
normalized axis is at least 1, a successful run records the normalized grid,
and grid `(-1,-1,-1)` on a cached kernel runs as a single work item. -/
theorem run_grid_normalization_witness :
    normC (-7) = 1 ∧ (1 : ℤ) ≤ normC 0 ∧
    DispatchRecord.gridSize ⟨(1, 1, 1), (32, 32, 1), [], .dispatchThreads⟩ =
      (normC (-1), normC (-1), normC (-1)) ∧
    Function.Run ⟨true, true⟩ [some (.func ⟨32, 1024⟩)] ⟨1⟩ ⟨-1, -1, -1⟩ [] =
      .success ⟨(1, 1, 1), (32, 32, 1), [], .dispatchThreads⟩ := by
  refine ⟨run_grid_normalization.1 (-7) (by decide) (by decide),
    run_grid_normalization.2.1 0,
    run_grid_normalization.2.2.1 ⟨true, true⟩ [some (.func ⟨32, 1024⟩)] ⟨1⟩
      ⟨-1, -1, -1⟩ [] ⟨(1, 1, 1), (32, 32, 1), [], .dispatchThreads⟩ (by decide), ?_⟩
  have h := run_grid_normalization.2.2.2 ⟨true, true⟩ [some (.func ⟨32, 1024⟩)] ⟨1⟩
    (CacheItem.func ⟨32, 1024⟩) (by decide) rfl rfl
  exact h.trans (by decide)

/-- Claim C7: the handle validity checks are pure positivity tests: for every
integer h, `BufferId.Valid` and `Function.Valid` return true iff h > 0, with
no cache lookup involved. -/
theorem handle_valid_iff_positive :
    ∀ h : ℤ, (BufferId.Valid h = true ↔ 0 < h) ∧ (Function.Valid ⟨h⟩ = true ↔ 0 < h) := by
  intro h
  constructor <;> simp [BufferId.Valid, Function.Valid]

/-- Concrete instance of claim C7: handle 3 is valid, handle -2 and handle 0
are not. -/
theorem handle_valid_iff_positive_witness :
    BufferId.Valid 3 = true ∧ Function.Valid ⟨3⟩ = true ∧
    ¬ BufferId.Valid (-2) = true ∧ ¬ Function.Valid ⟨0⟩ = true := by
  refine ⟨(handle_valid_iff_positive 3).1.mpr (by decide),
    (handle_valid_iff_positive 3).2.mpr (by decide), ?_, ?_⟩
  · intro h
    exact absurd ((handle_valid_iff_positive (-2)).1.mp h) (by decide)
  · intro h
    exact absurd ((handle_valid_iff_positive 0).2.mp h) (by decide)

/-- Claim C6: compiling with an empty source string fails with the
missing-source error regardless of the entry point (the source check comes
first); with non-empty source and an empty entry point it fails with the
missing-entry-point error; and with non-empty source whose compiled module
does not export the (non-empty) entry-point name it fails with the
entry-point-not-found error. -/
theorem newFunction_error_order :
    ∀ (env : CompileEnv) (cache : Cache) (metalCode funcName : String),
      (metalCode = "" →
        metal_newFunction env cache metalCode funcName = .error .missingSource) ∧
      (metalCode ≠ "" → funcName = "" →
        metal_newFunction env cache metalCode funcName = .error .missingEntryPoint) ∧
      (∀ library, metalCode ≠ "" → funcName ≠ "" → env.mallocOk = true →
        env.newLibrary metalCode = some library →
        library.funcNames.contains funcName = false →
        metal_newFunction env cache metalCode funcName =
          .error (.entryPointNotFound funcName)) := by
  intro env cache code name
  refine ⟨?_, ?_, ?_⟩
  · intro h
    simp [metal_newFunction, h]
  · intro h1 h2
    simp [metal_newFunction, h1, h2]
  · intro library h1 h2 hm hlib hnot
    simp [metal_newFunction, h1, h2, hm, hlib, hnot]
    intro hmem
    exact absurd hmem (by simpa using hnot)

/-- Concrete instance of claim C6: an empty source fails with the
missing-source error even with a valid entry point; source without an empty
entry point fails with the missing-entry-point error; and a module exporting
only `transfer` fails to resolve `invalid`. -/
theorem newFunction_error_order_witness :
    metal_newFunction ⟨true, fun _ => some ⟨["transfer"]⟩, some ⟨32, 1024⟩, true⟩ []
      "" "transfer" = .error .missingSource ∧
    metal_newFunction ⟨true, fun _ => some ⟨["transfer"]⟩, some ⟨32, 1024⟩, true⟩ []
      "x" "" = .error .missingEntryPoint ∧
    metal_newFunction ⟨true, fun _ => some ⟨["transfer"]⟩, some ⟨32, 1024⟩, true⟩ []
      "x" "invalid" = .error (.entryPointNotFound "invalid") :=
  ⟨(newFunction_error_order ⟨true, fun _ => some ⟨["transfer"]⟩, some ⟨32, 1024⟩, true⟩ []
      "" "transfer").1 rfl,
    (newFunction_error_order ⟨true, fun _ => some ⟨["transfer"]⟩, some ⟨32, 1024⟩, true⟩ []
      "x" "").2.1 (by decide) rfl,
    (newFunction_error_order ⟨true, fun _ => some ⟨["transfer"]⟩, some ⟨32, 1024⟩, true⟩ []
      "x" "invalid").2.2 ⟨["transfer"]⟩ (by decide) (by decide) rfl rfl (by decide)⟩

/-- Claim C8: whenever a dispatch is encoded, the threadgroup size passed to
the device is `(w, maxTotalThreadsPerThreadgroup / w, 1)` with
`w = threadExecutionWidth` of the resolved pipeline (integer division); the
shape depends only on the pipeline, not on the grid arguments, and the
non-uniform `dispatchThreads` primitive is used. -/
theorem run_threadgroup_size :
    ∀ (env : RunEnv) (cache : Cache) (functionId width height depth : ℤ)
      (bufferIds : List ℤ) (p : Pipeline) (r : DispatchRecord),
      cache_retrieve cache functionId = some (.func p) →
      metal_runFunction env cache functionId width height depth bufferIds = .success r →
      r.threadgroupSize =
        (p.threadExecutionWidth, p.maxTotalThreadsPerThreadgroup / p.threadExecutionWidth, 1) ∧
      r.method = .dispatchThreads := by
  intro env cache functionId width height depth bufferIds p r hre h
  obtain ⟨item, items, hitem, hres, hr⟩ := run_success_inv _ _ _ _ _ _ _ _ h
  have h4 : CacheItem.func p = item := Option.some.inj (hre.symm.trans hitem)
  subst h4
  subst hr
  exact ⟨rfl, rfl⟩

lemma wrap64_eq_self (x : ℤ) (h1 : -(2 ^ 63) ≤ x) (h2 : x < 2 ^ 63) : wrap64 x = x := by
  unfold wrap64
  omega

lemma wrap32_eq_self (x : ℤ) (h1 : -(2 ^ 31) ≤ x) (h2 : x < 2 ^ 31) : wrap32 x = x := by
  unfold wrap32
  omega

lemma prod_one_le (l : List ℤ) (h : ∀ d ∈ l, 1 ≤ d) : 1 ≤ l.prod := by
  induction l with
  | nil => simp
  | cons d rest ih =>
    rw [List.prod_cons]
    have hd := h d (by simp)
    have hr := ih fun x hx => h x (by simp [hx])
    nlinarith

lemma foldl_goMul_eq (l : List ℤ) : ∀ a : ℤ, (∀ d ∈ l, 1 ≤ d) → 0 ≤ a →
    a * l.prod < 2 ^ 63 → l.foldl goMul a = a * l.prod := by
  induction l with
  | nil => intro a _ _ _; simp
  | cons d rest ih =>
    intro a hdl ha hbound
    have hd : 1 ≤ d := hdl d (by simp)
    have hrest : ∀ x ∈ rest, 1 ≤ x := fun x hx => hdl x (by simp [hx])
    have hprest : 1 ≤ rest.prod := prod_one_le rest hrest
    have had : 0 ≤ a * d := mul_nonneg ha (by omega)
    have hb2 : a * d * rest.prod < 2 ^ 63 := by
      rw [List.prod_cons] at hbound
      rw [mul_assoc]
      exact hbound
    have hlt : a * d < 2 ^ 63 := lt_of_le_of_lt (le_mul_of_one_le_right had hprest) hb2
    have hgm : goMul a d = a * d := wrap64_eq_self _ (by omega) hlt
    rw [List.foldl_cons, hgm, ih (a * d) hrest had hb2, List.prod_cons, mul_assoc]

lemma numElemsOf_eq_prod (dims : List ℤ) (hpos : ∀ d ∈ dims, 1 ≤ d)
    (hbound : dims.prod < 2 ^ 63) : numElemsOf dims = dims.prod := by
  unfold numElemsOf
  have := foldl_goMul_eq dims 1 hpos (by norm_num) (by rw [one_mul]; exact hbound)
  simpa using this

lemma any_lt_one_eq_false (dims : List ℤ) (hpos : ∀ d ∈ dims, 1 ≤ d) :
    ¬((dims.any fun d => decide (d < 1)) = true) := by
  rw [List.any_eq_true]
  rintro ⟨d, hd, hlt⟩
  have := hpos d hd
  simp at hlt
  omega

/-- Claim C10: `metalErrToError` returns nil iff the native error string is
nil or empty and the wrap is empty; with only a wrap present the message is
exactly the wrap; with both present the message is the wrap, a colon-space
separator, then the native text. -/
theorem metalErrToError_spec :
    ∀ (metalErr : Option String) (wrap : String),
      (metalErrToError metalErr wrap = none ↔
        ((metalErr = none ∨ metalErr = some "") ∧ wrap = "")) ∧
      ((metalErr = none ∨ metalErr = some "") → wrap ≠ "" →
        metalErrToError metalErr wrap = some wrap) ∧
      (∀ s : String, metalErr = some s → s ≠ "" → wrap ≠ "" →
        metalErrToError metalErr wrap = some (wrap ++ ": " ++ s)) := by
  intro me wrap
  refine ⟨?_, ?_, ?_⟩
  · unfold metalErrToError
    split
    next hc =>
      split
      next hw => simp [hc, hw]
      next hw => simp [hw]
    next hc =>
      split
      next hw => simp [hc]
      next hw => simp [hc]
  · intro hempty hw
    unfold metalErrToError
    rw [if_pos hempty, if_neg hw]
  · intro s hs hsne hw
    subst hs
    unfold metalErrToError
    rw [if_neg (by simp [hsne]), if_neg hw]
    simp

/-- Concrete instance of claim C10: nil native error and empty wrap give a
nil error; wrap only gives the wrap; both give the combined message. -/
theorem metalErrToError_spec_witness :
    metalErrToError none "" = none ∧
    metalErrToError (some "") "Unable to create buffer" = some "Unable to create buffer" ∧
    metalErrToError (some "Failed to create library") "Unable to set up metal function" =
      some "Unable to set up metal function: Failed to create library" := by
  refine ⟨(metalErrToError_spec none "").1.mpr (by simp),
    (metalErrToError_spec (some "") "Unable to create buffer").2.1 (by simp) (by simp),
    ?_⟩
  have h := (metalErrToError_spec (some "Failed to create library")
    "Unable to set up metal function").2.2 "Failed to create library" rfl (by simp) (by simp)
  exact h

/-- Claim C4: a buffer allocation whose dimension list is empty or contains
an entry below 1 fails with an invalid-dimensions error, handle 0 and a nil
view, and requests no device memory. -/
theorem newBuffer_invalid_dimensions :
    ∀ (env : BufEnv) (t : BufferType) (dimLens : List ℤ),
      (dimLens = [] ∨ ∃ d ∈ dimLens, d < 1) →
      (newBuffer env t dimLens).1.id = 0 ∧
      (newBuffer env t dimLens).1.view = none ∧
      ((newBuffer env t dimLens).1.err = some "Missing dimension(s)" ∨
        (newBuffer env t dimLens).1.err = some "Invalid number of elements") ∧
      (newBuffer env t dimLens).2 = [] := by
  intro env t dims hinv
  unfold newBuffer
  split
  next => exact ⟨rfl, rfl, Or.inl rfl, rfl⟩
  next h0 =>
    split
    next => exact ⟨rfl, rfl, Or.inr rfl, rfl⟩
    next h1 =>
      exfalso
      rcases hinv with h | ⟨d, hd, hlt⟩
      · exact h0 h
      · exact h1 (List.any_eq_true.mpr ⟨d, hd, by simpa using hlt⟩)

/-- Concrete instance of claim C4: allocating with dimension 0, dimension
-1, or no dimensions fails with handle 0, a nil view, an invalid-dimensions
error, and no device request. -/
theorem newBuffer_invalid_dimensions_witness :
    ((newBuffer ⟨fun _ => 1, fun _ => true, none⟩ .f32 [0]).1.id = 0 ∧
      (newBuffer ⟨fun _ => 1, fun _ => true, none⟩ .f32 [0]).1.view = none ∧
      ((newBuffer ⟨fun _ => 1, fun _ => true, none⟩ .f32 [0]).1.err =
          some "Missing dimension(s)" ∨
        (newBuffer ⟨fun _ => 1, fun _ => true, none⟩ .f32 [0]).1.err =
          some "Invalid number of elements") ∧
      (newBuffer ⟨fun _ => 1, fun _ => true, none⟩ .f32 [0]).2 = []) ∧
    ((newBuffer ⟨fun _ => 1, fun _ => true, none⟩ .f32 [-1]).1.id = 0 ∧
      (newBuffer ⟨fun _ => 1, fun _ => true, none⟩ .f32 [-1]).1.view = none ∧
      ((newBuffer ⟨fun _ => 1, fun _ => true, none⟩ .f32 [-1]).1.err =
          some "Missing dimension(s)" ∨
        (newBuffer ⟨fun _ => 1, fun _ => true, none⟩ .f32 [-1]).1.err =
          some "Invalid number of elements") ∧
      (newBuffer ⟨fun _ => 1, fun _ => true, none⟩ .f32 [-1]).2 = []) ∧
    ((newBuffer ⟨fun _ => 1, fun _ => true, none⟩ .f32 []).1.id = 0 ∧
      (newBuffer ⟨fun _ => 1, fun _ => true, none⟩ .f32 []).1.view = none ∧
      ((newBuffer ⟨fun _ => 1, fun _ => true, none⟩ .f32 []).1.err =
          some "Missing dimension(s)" ∨
        (newBuffer ⟨fun _ => 1, fun _ => true, none⟩ .f32 []).1.err =
          some "Invalid number of elements") ∧
      (newBuffer ⟨fun _ => 1, fun _ => true, none⟩ .f32 []).2 = []) :=
  ⟨newBuffer_invalid_dimensions ⟨fun _ => 1, fun _ => true, none⟩ .f32 [0]
      (Or.inr (by decide)),
    newBuffer_invalid_dimensions ⟨fun _ => 1, fun _ => true, none⟩ .f32 [-1]
      (Or.inr (by decide)),
    newBuffer_invalid_dimensions ⟨fun _ => 1, fun _ => true, none⟩ .f32 []
      (Or.inl rfl)⟩

/-- Counterexample to claim C9 as stated: allocating 2^31 one-byte elements
(every dimension at least 1) requests -2^31 bytes from the device, not the
2^31 bytes the claim promises: the Go `int` byte count is truncated to a
signed 32-bit C `int` at the `buffer_new` boundary. -/
theorem newBuffer_bytes_requested_counterexample :
    (newBuffer ⟨fun _ => 1, fun _ => true, none⟩ .i8 [2147483648]).2 =
      [(-2147483648 : ℤ)] ∧
    sizeof BufferType.i8 * (2147483648 : ℤ) = 2147483648 ∧
    ((-2147483648 : ℤ) ≠ 2147483648) := by
  refine ⟨rfl, by decide, by decide⟩

/-- Claim C9 (amended): every successful allocation issues exactly one
device request, for `C.int(sizeof(T) * product(dims))` bytes — the exact
mathematical product whenever it is below 2^31, and in general that product
reduced to a signed 64-bit Go `int` and then truncated to a signed 32-bit C
`int` at the cgo boundary. -/
theorem newBuffer_bytes_requested :
    ∀ (env : BufEnv) (t : BufferType) (dimLens : List ℤ),
      (dimLens ≠ [] → (∀ d ∈ dimLens, 1 ≤ d) →
        (newBuffer env t dimLens).2 = [reqBytes t dimLens]) ∧
      (dimLens ≠ [] → (∀ d ∈ dimLens, 1 ≤ d) → sizeof t * dimLens.prod < 2 ^ 31 →
        (newBuffer env t dimLens).2 = [sizeof t * dimLens.prod]) := by
  intro env t dims
  have hpart1 : ∀ (_ : dims ≠ []) (_ : ∀ d ∈ dims, 1 ≤ d),
      (newBuffer env t dims).2 = [reqBytes t dims] := by
    intro hne hpos
    unfold newBuffer
    rw [if_neg hne, if_neg (any_lt_one_eq_false dims hpos)]
    split
    · rfl
    split
    · rfl
    rfl
  refine ⟨hpart1, ?_⟩
  intro hne hpos hbound
  rw [hpart1 hne hpos]
  have hsize : 1 ≤ sizeof t := by cases t <;> norm_num [sizeof]
  have hprod : 1 ≤ dims.prod := prod_one_le dims hpos
  have h1 : dims.prod ≤ sizeof t * dims.prod := le_mul_of_one_le_left (by omega) hsize
  have hpos2 : 0 < sizeof t * dims.prod := mul_pos (by omega) (by omega)
  have hlt63 : dims.prod < 2 ^ 63 := by omega
  have hbytes : numBytesOf t dims = sizeof t * dims.prod := by
    unfold numBytesOf
    rw [numElemsOf_eq_prod dims hpos hlt63]
    exact wrap64_eq_self _ (by omega) (by omega)
  unfold reqBytes
  rw [hbytes, wrap32_eq_self _ (by omega) hbound]

/-- Concrete instance of claim C9 (amended): allocating a 2 x 3 buffer of
4-byte elements requests exactly 24 bytes. -/
theorem newBuffer_bytes_requested_witness :
    (newBuffer ⟨fun _ => 1, fun _ => true, none⟩ .i32 [2, 3]).2 = [(24 : ℤ)] := by
  have h := (newBuffer_bytes_requested ⟨fun _ => 1, fun _ => true, none⟩ .i32 [2, 3]).2
    (by decide) (by decide) (by decide)
  exact h.trans (by decide)

lemma take_range (n : ℕ) : (List.range n).take n = List.range n := by
  have h := List.take_length (List.range n)
  rwa [List.length_range] at h

lemma fold_data_length {α : Type} (src : GoSlice α) (c : ℕ) :
    (fold src c).data.length = c := by
  simp [fold]

lemma fold_cap {α : Type} (src : GoSlice α) (c : ℕ) : (fold src c).cap = c := rfl

lemma fold_getD {α : Type} (src : GoSlice α) (c i : ℕ) (hi : i < c) (d : GoSlice α) :
    (fold src c).data.getD i d =
      ⟨(src.data.drop (i * (src.data.length / c))).take (src.data.length / c),
        src.data.length / c⟩ := by
  unfold fold
  rw [List.getD_eq_getElem _ d (by simpa using hi)]
  simp

lemma fold_exact {α : Type} (src : GoSlice α) (c m : ℕ) (hc : 0 < c)
    (hlen : src.data.length = c * m) (i : ℕ) (hi : i < c) (d : GoSlice α) :
    ((fold src c).data.getD i d).data = (src.data.drop (i * m)).take m ∧
    ((fold src c).data.getD i d).cap = m := by
  have hdiv : src.data.length / c = m := by
    rw [hlen]
    exact Nat.mul_div_cancel_left m hc
  rw [fold_getD src c i hi d, hdiv]
  exact ⟨rfl, rfl⟩

lemma chunk_len {α : Type} (l : List α) (c m i : ℕ) (hi : i < c)
    (hlen : l.length = c * m) : ((l.drop (i * m)).take m).length = m := by
  have h2 : (i + 1) * m ≤ c * m := Nat.mul_le_mul_right m (by omega)
  rw [Nat.add_mul, one_mul] at h2
  simp only [List.length_take, List.length_drop, hlen]
  omega

lemma chunk_getD {α : Type} (l : List α) (c m i j : ℕ) (hi : i < c) (hj : j < m)
    (hlen : l.length = c * m) (d : α) :
    ((l.drop (i * m)).take m).getD j d = l.getD (i * m + j) d := by
  have h2 : (i + 1) * m ≤ c * m := Nat.mul_le_mul_right m (by omega)
  rw [Nat.add_mul, one_mul] at h2
  have hlen2 := chunk_len l c m i hi hlen
  have hlt : i * m + j < l.length := by omega
  rw [List.getD_eq_getElem _ d (by omega), List.getD_eq_getElem _ d hlt]
  simp [List.getElem_take, List.getElem_drop]

lemma range_getD (n k : ℕ) (hk : k < n) : (List.range n).getD k 0 = k := by
  rw [List.getD_eq_getElem _ 0 (by simpa using hk)]
  exact List.getElem_range k _

lemma newBuffer_success (env : BufEnv) (t : BufferType) (dims : List ℤ)
    (hne : dims ≠ []) (hpos : ∀ d ∈ dims, 1 ≤ d)
    (h1 : ∀ n, env.bufferNew n ≠ 0) (h2 : ∀ n, env.bufferRetrieve n = true)
    (hbound : dims.prod < 2 ^ 63) :
    (newBuffer env t dims).1.err = none ∧
    (newBuffer env t dims).1.view =
      some ⟨List.range dims.prod.toNat, dims.prod.toNat⟩ := by
  unfold newBuffer
  rw [if_neg hne, if_neg (any_lt_one_eq_false dims hpos), if_neg (h1 _),
    if_neg (by simp [h2 _])]
  refine ⟨rfl, ?_⟩
  show some (toSlice (List.range (numElemsOf dims).toNat) (numElemsOf dims).toNat) = _
  rw [numElemsOf_eq_prod dims hpos hbound]
  unfold toSlice
  rw [take_range]

lemma range_chunk_getD (c m i j : ℕ) (hi : i < c) (hj : j < m) :
    (((List.range (c * m)).drop (i * m)).take m).getD j 0 = i * m + j := by
  have h2 : (i + 1) * m ≤ c * m := Nat.mul_le_mul_right m (by omega)
  rw [Nat.add_mul, one_mul] at h2
  rw [chunk_getD (List.range (c * m)) c m i j hi hj (by simp) 0]
  exact range_getD (c * m) (i * m + j) (by omega)

/-- Claim C5: a successful `NewBuffer2D(length, width)` returns an outer
sequence of exactly `length` inner sequences of exactly `width` elements,
slicing the flat block into contiguous chunks so that element (i, j) aliases
flat cell i*width+j without copying; `NewBuffer3D` applies the same folding
twice, producing innermost dimension `height` with element (i, j, k)
aliasing flat cell (i*width+j)*height+k; and every produced sequence at
every level has capacity equal to its length. -/
theorem newBuffer_views_shape :
    ∀ (env : BufEnv) (t : BufferType) (l w h : ℕ),
      (∀ n, env.bufferNew n ≠ 0) → (∀ n, env.bufferRetrieve n = true) →
      0 < l → 0 < w → 0 < h → ((l * w * h : ℕ) : ℤ) < 2 ^ 63 →
      ((NewBuffer2D env t l w).1.view ≠ none ∧
        ∀ v2, (NewBuffer2D env t l w).1.view = some v2 →
          v2.data.length = l ∧ v2.cap = l ∧
          ∀ i, i < l →
            (v2.data.getD i ⟨[], 0⟩).data.length = w ∧
            (v2.data.getD i ⟨[], 0⟩).cap = w ∧
            ∀ j, j < w → (v2.data.getD i ⟨[], 0⟩).data.getD j 0 = i * w + j) ∧
      ((NewBuffer3D env t l w h).1.view ≠ none ∧
        ∀ v3, (NewBuffer3D env t l w h).1.view = some v3 →
          v3.data.length = l ∧ v3.cap = l ∧
          ∀ i, i < l →
            (v3.data.getD i ⟨[], 0⟩).data.length = w ∧
            (v3.data.getD i ⟨[], 0⟩).cap = w ∧
            ∀ j, j < w →
              ((v3.data.getD i ⟨[], 0⟩).data.getD j ⟨[], 0⟩).data.length = h ∧
              ((v3.data.getD i ⟨[], 0⟩).data.getD j ⟨[], 0⟩).cap = h ∧
              ∀ k, k < h →
                ((v3.data.getD i ⟨[], 0⟩).data.getD j ⟨[], 0⟩).data.getD k 0 =
                  (i * w + j) * h + k) := by
  intro env t l w h henv1 henv2 hl hw hh hbound
  have hb2 : ((l * w : ℕ) : ℤ) < 2 ^ 63 := by
    have hle : l * w ≤ l * w * h := Nat.le_mul_of_pos_right _ hh
    have hle2 : ((l * w : ℕ) : ℤ) ≤ ((l * w * h : ℕ) : ℤ) := by exact_mod_cast hle
    omega
  have hprod2 : ([(l : ℤ), (w : ℤ)]).prod = ((l * w : ℕ) : ℤ) := by
    simp [List.prod_cons]
  have hpos2 : ∀ d ∈ [(l : ℤ), (w : ℤ)], 1 ≤ d := by
    intro d hd
    simp at hd
    rcases hd with rfl | rfl
    · exact_mod_cast hl
    · exact_mod_cast hw
  obtain ⟨herr2, hview2⟩ := newBuffer_success env t [(l : ℤ), (w : ℤ)] (by simp) hpos2
    henv1 henv2 (by rw [hprod2]; exact hb2)
  have hv2 : (NewBuffer2D env t l w).1.view =
      some (fold ⟨List.range (l * w), l * w⟩ l) := by
    simp only [NewBuffer2D, herr2, hview2, hprod2]
    simp
    rw [show ((l : ℤ) * (w : ℤ)).toNat = l * w by rw [← Nat.cast_mul, Int.toNat_natCast]]
  have hprod3 : ([(l : ℤ), (w : ℤ), (h : ℤ)]).prod = ((l * w * h : ℕ) : ℤ) := by
    simp [List.prod_cons]
    ring
  have hpos3 : ∀ d ∈ [(l : ℤ), (w : ℤ), (h : ℤ)], 1 ≤ d := by
    intro d hd
    simp at hd
    rcases hd with rfl | rfl | rfl
    · exact_mod_cast hl
    · exact_mod_cast hw
    · exact_mod_cast hh
  obtain ⟨herr3, hview3⟩ := newBuffer_success env t [(l : ℤ), (w : ℤ), (h : ℤ)] (by simp)
    hpos3 henv1 henv2 (by rw [hprod3]; exact hbound)
  have hgm : goMul (l : ℤ) (w : ℤ) = ((l * w : ℕ) : ℤ) := by
    unfold goMul
    rw [show ((l : ℤ) * w) = ((l * w : ℕ) : ℤ) by push_cast; ring]
    refine wrap64_eq_self _ ?_ hb2
    have hge : (0 : ℤ) ≤ ((l * w : ℕ) : ℤ) := by positivity
    omega
  have hv3 : (NewBuffer3D env t l w h).1.view =
      some (fold (fold ⟨List.range (l * w * h), l * w * h⟩ (l * w)) l) := by
    simp only [NewBuffer3D, herr3, hview3, hprod3, hgm]
    simp
    rw [show ((l : ℤ) * (w : ℤ) * (h : ℤ)).toNat = l * w * h by
        rw [← Nat.cast_mul, ← Nat.cast_mul, Int.toNat_natCast],
      show ((l : ℤ) * (w : ℤ)).toNat = l * w by rw [← Nat.cast_mul, Int.toNat_natCast]]
  refine ⟨⟨by rw [hv2]; simp, ?_⟩, ⟨by rw [hv3]; simp, ?_⟩⟩
  · intro v2 hveq
    rw [hv2] at hveq
    have hv2eq := (Option.some.inj hveq).symm
    subst hv2eq
    refine ⟨fold_data_length _ _, fold_cap _ _, ?_⟩
    intro i hi
    obtain ⟨hdata, hcap⟩ := fold_exact ⟨List.range (l * w), l * w⟩ l w hl (by simp) i hi ⟨[], 0⟩
    refine ⟨by rw [hdata]; exact chunk_len _ l w i hi (by simp), hcap, ?_⟩
    intro j hj
    rw [hdata]
    exact range_chunk_getD l w i j hi hj
  · intro v3 hveq
    rw [hv3] at hveq
    have hv3eq := (Option.some.inj hveq).symm
    subst hv3eq
    have hb2len : (fold ⟨List.range (l * w * h), l * w * h⟩ (l * w)).data.length = l * w :=
      fold_data_length _ _
    refine ⟨fold_data_length _ _, fold_cap _ _, ?_⟩
    intro i hi
    obtain ⟨hmdata, hmcap⟩ := fold_exact (fold ⟨List.range (l * w * h), l * w * h⟩ (l * w))
      l w hl hb2len i hi ⟨[], 0⟩
    refine ⟨by rw [hmdata]; exact chunk_len _ l w i hi hb2len, hmcap, ?_⟩
    intro j hj
    have hij : i * w + j < l * w := by
      have h2 : (i + 1) * w ≤ l * w := Nat.mul_le_mul_right w (by omega)
      rw [Nat.add_mul, one_mul] at h2
      omega
    have hinner : (fold ⟨List.range (l * w * h), l * w * h⟩ (l * w)).data.getD (i * w + j)
        ⟨[], 0⟩ =
        ⟨((List.range (l * w * h)).drop ((i * w + j) * h)).take h, h⟩ := by
      obtain ⟨hidata, hicap⟩ := fold_exact (⟨List.range (l * w * h), l * w * h⟩ : GoSlice ℕ)
        (l * w) h (by positivity) (by simp) (i * w + j) hij ⟨[], 0⟩
      exact GoSlice.ext hidata hicap
    rw [hmdata, chunk_getD _ l w i j hi hj hb2len _, hinner]
    refine ⟨chunk_len _ (l * w) h (i * w + j) hij (by simp), rfl, ?_⟩
    intro k hk
    exact range_chunk_getD (l * w) h (i * w + j) k hij hk

/-- Concrete instance of claim C5: a 2 x 3 two-dimensional buffer and a
2 x 3 x 2 three-dimensional buffer have the claimed shapes, capacities, and
flat-index aliasing. -/
theorem newBuffer_views_shape_witness :
    ((NewBuffer2D ⟨fun _ => 1, fun _ => true, none⟩ .f32 2 3).1.view ≠ none ∧
      ∀ v2, (NewBuffer2D ⟨fun _ => 1, fun _ => true, none⟩ .f32 2 3).1.view = some v2 →
        v2.data.length = 2 ∧ v2.cap = 2 ∧
        ∀ i, i < 2 →
          (v2.data.getD i ⟨[], 0⟩).data.length = 3 ∧
          (v2.data.getD i ⟨[], 0⟩).cap = 3 ∧
          ∀ j, j < 3 → (v2.data.getD i ⟨[], 0⟩).data.getD j 0 = i * 3 + j) ∧
    ((NewBuffer3D ⟨fun _ => 1, fun _ => true, none⟩ .f32 2 3 2).1.view ≠ none ∧
      ∀ v3, (NewBuffer3D ⟨fun _ => 1, fun _ => true, none⟩ .f32 2 3 2).1.view = some v3 →
        v3.data.length = 2 ∧ v3.cap = 2 ∧
        ∀ i, i < 2 →
          (v3.data.getD i ⟨[], 0⟩).data.length = 3 ∧
          (v3.data.getD i ⟨[], 0⟩).cap = 3 ∧
          ∀ j, j < 3 →
            ((v3.data.getD i ⟨[], 0⟩).data.getD j ⟨[], 0⟩).data.length = 2 ∧
            ((v3.data.getD i ⟨[], 0⟩).data.getD j ⟨[], 0⟩).cap = 2 ∧
            ∀ k, k < 2 →
              ((v3.data.getD i ⟨[], 0⟩).data.getD j ⟨[], 0⟩).data.getD k 0 =
                (i * 3 + j) * 2 + k) :=
  newBuffer_views_shape ⟨fun _ => 1, fun _ => true, none⟩ .f32 2 3 2
    (fun _ => one_ne_zero) (fun _ => rfl) (by decide) (by decide) (by decide) (by decide)

/-- Concrete instance of claim C8: a pipeline with warp width 32 and a
1024-thread budget dispatches with threadgroup shape (32, 32, 1), using the
non-uniform primitive, for an arbitrary 9 x 9 x 9 grid. -/
theorem run_threadgroup_size_witness :
    DispatchRecord.threadgroupSize ⟨(9, 9, 9), (32, 32, 1), [], .dispatchThreads⟩ =
      (32, 32, 1) ∧
    DispatchRecord.method ⟨(9, 9, 9), (32, 32, 1), [], .dispatchThreads⟩ =
      .dispatchThreads :=
  run_threadgroup_size ⟨true, true⟩ [some (.func ⟨32, 1024⟩)] 1 9 9 9 [] ⟨32, 1024⟩
    ⟨(9, 9, 9), (32, 32, 1), [], .dispatchThreads⟩ (by decide) (by decide)

end Metal
